import Mathlib

/-!
# Verification of the `apply_skin.py` tile-skinning pipeline

Shallow embedding of `scripts/apply_skin.py` (map-tile cartoon skin
generator) and proofs of the specified properties.

Modelling conventions:

* A raster image is a width, a height, and a pixel map; each pixel is an
  (R,G,B) triple of natural numbers (8-bit channel values `0..255` for
  well-formed images).
* NumPy `float32` arithmetic is modelled with exact rationals `ℚ`.  All
  constants of the pipeline (`0.15`, `1.1`, the thresholds) are decimal
  fractions, and every comparison settled below sits far from the float
  rounding error of the actual computation.
* `np.clip(a, 0, 255).astype(np.uint8)` is modelled by clamping to
  `[0,255]` followed by truncation toward zero (`Int.floor` on the
  clamped, nonnegative value).
* The Gaussian-blur/saturation stage (Pillow `GaussianBlur` +
  `ImageEnhance.Color`, lines 72-81) and the LANCZOS resampling kernel of
  `vibe_img.resize((32, 32), Image.LANCZOS)` (line 90) are Pillow library
  internals, not code of this repository.  The pipeline is therefore
  parametrized over them: `pre` is the pixel map produced by the
  blur+saturate stage, `rk` the pixel map produced by the resampling
  kernel.  The `(32, 32)` target size, the posterization, the mean/shift
  arithmetic and the brightness stage are taken directly from the source.
* Python floats in `lat_lon_to_tile` are modelled as real numbers;
  `int(...)` is truncation toward zero.
-/

set_option maxRecDepth 8000

/-- An (R,G,B) channel triple of one pixel. -/
abbrev Px : Type := ℕ × ℕ × ℕ

/-- A pixel map: channel triple at column `x`, row `y`. -/
abbrev PixMap : Type := ℕ → ℕ → Px

/-- A raster image: dimensions plus pixel map (`RasterImage` of the spec). -/
structure Image where
  w : ℕ
  h : ℕ
  px : PixMap

/-- `ImageOps.posterize(img, 4)` on one channel (line 86): keep the high
4 bits, i.e. bitwise-and with `0xF0`. -/
def posterize_channel (v : ℕ) : ℕ :=
  Nat.land v 240

/-- Posterization stage (line 86), applied to every channel of every pixel. -/
def posterizeImg (i : Image) : Image :=
  ⟨i.w, i.h, fun x y =>
    (posterize_channel (i.px x y).1,
     posterize_channel (i.px x y).2.1,
     posterize_channel (i.px x y).2.2)⟩

/-- Sum of one channel (selected by `f`) over the pixels of an image. -/
def csum (i : Image) (f : Px → ℕ) : ℕ :=
  ∑ x ∈ Finset.range i.w, ∑ y ∈ Finset.range i.h, f (i.px x y)

/-- `np.array(img, dtype=np.float32).mean(axis=(0, 1))` (lines 91-95):
per-channel mean over all pixels. -/
def meanColor (i : Image) : ℚ × ℚ × ℚ :=
  ((csum i (fun p => p.1) : ℚ) / (i.w * i.h),
   (csum i (fun p => p.2.1) : ℚ) / (i.w * i.h),
   (csum i (fun p => p.2.2) : ℚ) / (i.w * i.h))

/-- Squared Euclidean distance of two mean-color vectors.  The source
compares `np.linalg.norm(vibe_mean - post_mean) > 20` (line 99); since
both sides are nonnegative this is equivalent to the squared comparison
with `400` used in `apply_skin` below. -/
def dist2 (a b : ℚ × ℚ × ℚ) : ℚ :=
  (a.1 - b.1) ^ 2 + (a.2.1 - b.2.1) ^ 2 + (a.2.2 - b.2.2) ^ 2

/-- `np.clip(q, 0, 255).astype(np.uint8)` on one channel value: clamp to
`[0, 255]`, then truncate toward zero (for the nonnegative clamped value
this is the floor). -/
def clip8 (q : ℚ) : ℕ :=
  (⌊max 0 (min 255 q)⌋).toNat

/-- `shift = (vibe_mean - post_mean) * 0.15` (line 100). -/
def shiftVec (vm pm : ℚ × ℚ × ℚ) : ℚ × ℚ × ℚ :=
  ((vm.1 - pm.1) * (3 / 20), (vm.2.1 - pm.2.1) * (3 / 20), (vm.2.2 - pm.2.2) * (3 / 20))

/-- `np.clip(post_arr + shift, 0, 255).astype(np.uint8)` (line 101):
add the constant shift vector to every pixel, clamp, truncate. -/
def shiftImg (i : Image) (s : ℚ × ℚ × ℚ) : Image :=
  ⟨i.w, i.h, fun x y =>
    (clip8 ((i.px x y).1 + s.1),
     clip8 ((i.px x y).2.1 + s.2.1),
     clip8 ((i.px x y).2.2 + s.2.2))⟩

/-- Brightness stage on one channel (lines 110-112):
`np.clip(v * 1.1 + 5, 0, 255)` then `.astype(np.uint8)`. -/
def brighten_channel (v : ℕ) : ℕ :=
  clip8 ((v : ℚ) * (11 / 10) + 5)

/-- Brightness/contrast boost stage (lines 107-112). -/
def brightenImg (i : Image) : Image :=
  ⟨i.w, i.h, fun x y =>
    (brighten_channel (i.px x y).1,
     brighten_channel (i.px x y).2.1,
     brighten_channel (i.px x y).2.2)⟩

/-- `vibe_img.resize((32, 32), Image.LANCZOS)` (line 90): the `(32, 32)`
target size is from the source; the resampled pixel content `rk vibe` is
the (library-computed) kernel output. -/
def vibeSmall (rk : Image → PixMap) (vibe : Image) : Image :=
  ⟨32, 32, rk vibe⟩

/-- The `apply_skin` pipeline (lines 69-112), from the posterization
stage on; `pre tile` is the pixel map after the two Gaussian-blur passes
and the saturation boost (lines 74-81, Pillow internals), `rk` the
LANCZOS resampling kernel (line 90, Pillow internals).  Stages 3-5
(posterize, vibe shift, brightness) are modelled from the source. -/
def apply_skin (pre : Image → PixMap) (rk : Image → PixMap) (tile vibe : Image) : Image :=
  let saturated : Image := ⟨tile.w, tile.h, pre tile⟩
  let posterized : Image := posterizeImg saturated
  let vibe_mean := meanColor (vibeSmall rk vibe)
  let post_mean := meanColor posterized
  let influenced : Image :=
    if dist2 vibe_mean post_mean > 400 then
      shiftImg posterized (shiftVec vibe_mean post_mean)
    else
      posterized
  brightenImg influenced

/-- On 8-bit inputs the posterize mask is the same as clearing the low
4 bits arithmetically. -/
theorem posterize_channel_eq (v : ℕ) (hv : v < 256) :
    posterize_channel v = 16 * (v / 16) := by
  revert hv
  revert v
  decide

/-- C2 counterexample: the posterization stage can never produce the
channel value 255; the top input 255 is mapped to 240, so the 16 levels
do not span the full 0-255 range (contradicting the claimed
`round(v / 17) * 17`-style quantization reaching 255). -/
theorem posterize_levels_counterexample :
    posterize_channel 255 = 240 ∧
      ((List.range 256).all fun v => posterize_channel v != 255) = true := by
  constructor
  · decide
  · decide

/-- C2 (amended): every 8-bit channel value `v` is quantized to
`(v / 16) * 16` (clearing the 4 low bits), producing exactly 16 discrete
levels `{0, 16, ..., 240}`; every level is a multiple of 16, the maximum
attainable level is 240, and 255 is not attainable. -/
theorem posterize_levels_amended :
    (∀ v : ℕ, v < 256 →
        posterize_channel v = 16 * (v / 16) ∧
        posterize_channel v ≤ 240 ∧
        16 ∣ posterize_channel v ∧
        posterize_channel v ≠ 255) ∧
      ((List.range 256).map posterize_channel).dedup.length = 16 := by
  constructor
  · intro v hv
    refine ⟨posterize_channel_eq v hv, ?_, ?_, ?_⟩
    · rw [posterize_channel_eq v hv]
      omega
    · rw [posterize_channel_eq v hv]
      exact Dvd.intro _ rfl
    · rw [posterize_channel_eq v hv]
      omega
  · decide

/-- Witness for C2 at the concrete input 255. -/
theorem posterize_levels_witness :
    posterize_channel 255 = 16 * (255 / 16) ∧
      posterize_channel 255 ≤ 240 ∧
      16 ∣ posterize_channel 255 ∧
      posterize_channel 255 ≠ 255 :=
  posterize_levels_amended.1 255 (by decide)

@[simp] theorem posterizeImg_w (i : Image) : (posterizeImg i).w = i.w := rfl

@[simp] theorem posterizeImg_h (i : Image) : (posterizeImg i).h = i.h := rfl

@[simp] theorem shiftImg_w (i : Image) (s : ℚ × ℚ × ℚ) : (shiftImg i s).w = i.w := rfl

@[simp] theorem shiftImg_h (i : Image) (s : ℚ × ℚ × ℚ) : (shiftImg i s).h = i.h := rfl

@[simp] theorem brightenImg_w (i : Image) : (brightenImg i).w = i.w := rfl

@[simp] theorem brightenImg_h (i : Image) : (brightenImg i).h = i.h := rfl

/-- C7: the skinned image has exactly the tile's dimensions, whatever the
vibe image's dimensions and whatever the library stages return. -/
theorem dimension_preservation (pre rk : Image → PixMap) (tile vibe : Image) :
    (apply_skin pre rk tile vibe).w = tile.w ∧ (apply_skin pre rk tile vibe).h = tile.h := by
  unfold apply_skin
  dsimp only
  split <;> exact ⟨rfl, rfl⟩

/-- The clamped value is always at most 255: saturation, not wrap-around. -/
theorem clip8_le (q : ℚ) : clip8 q ≤ 255 := by
  unfold clip8
  have h1 : max 0 (min 255 q) ≤ (255 : ℚ) :=
    max_le (by norm_num) (min_le_left _ _)
  have h2 : ⌊max 0 (min 255 q)⌋ ≤ (255 : ℤ) := by
    have := Int.floor_le_floor h1
    simpa using this
  omega

/-- Out-of-range values saturate at 255 (they are not reduced mod 256). -/
theorem clip8_of_ge (q : ℚ) (h : 255 ≤ q) : clip8 q = 255 := by
  unfold clip8
  rw [min_eq_left h, max_eq_right (by norm_num : (0 : ℚ) ≤ 255)]
  decide

/-- The clipped channel value, cast back to `ℚ`, is the floor of the
clamped value. -/
theorem clip8_cast (q : ℚ) : (clip8 q : ℚ) = (⌊max 0 (min 255 q)⌋ : ℚ) := by
  unfold clip8
  have hf : (0 : ℤ) ≤ ⌊max 0 (min 255 q)⌋ :=
    Int.floor_nonneg.mpr (le_max_left _ _)
  exact_mod_cast Int.toNat_of_nonneg hf

/-- The clamped-then-truncated value never exceeds the clamped value:
the fractional part is discarded downward. -/
theorem clip8_floor (q : ℚ) :
    (clip8 q : ℚ) ≤ max 0 (min 255 q) ∧ max 0 (min 255 q) < clip8 q + 1 := by
  rw [clip8_cast]
  exact ⟨Int.floor_le _, Int.lt_floor_add_one _⟩

/-- C10: the final brightness stage computes `v * 1.1 + 5`, clamps to
`[0, 255]`, and converts to 8 bits by truncation toward zero: the result
is the integer part of the clamped value (never rounded to nearest).
Concretely `v = 139` gives `139 * 1.1 + 5 = 157.9`, stored as `157`, and
a clamped value of `158.9` is stored as `158`. -/
theorem brightness_truncation :
    (∀ v : ℕ, v ≤ 255 →
        (brighten_channel v : ℚ) ≤ max 0 (min 255 ((v : ℚ) * (11 / 10) + 5)) ∧
          max 0 (min 255 ((v : ℚ) * (11 / 10) + 5)) < brighten_channel v + 1) ∧
      brighten_channel 139 = 157 ∧
      clip8 (1589 / 10) = 158 := by
  refine ⟨fun v _ => clip8_floor _, ?_, ?_⟩
  · norm_num [brighten_channel, clip8]
    decide
  · norm_num [clip8]
    decide

/-- Witness for C10 at the concrete input 139. -/
theorem brightness_truncation_witness :
    (brighten_channel 139 : ℚ) ≤ max 0 (min 255 ((139 : ℚ) * (11 / 10) + 5)) ∧
      max 0 (min 255 ((139 : ℚ) * (11 / 10) + 5)) < brighten_channel 139 + 1 := by
  have h := brightness_truncation.1 139 (by norm_num)
  exact_mod_cast h

/-- All channel values of an image lie in the 8-bit range `[0, 255]`
(the lower bound holds by the `ℕ` representation). -/
def Bounded255 (i : Image) : Prop :=
  ∀ x, x < i.w → ∀ y, y < i.h →
    (i.px x y).1 ≤ 255 ∧ (i.px x y).2.1 ≤ 255 ∧ (i.px x y).2.2 ≤ 255

theorem posterize_channel_le (v : ℕ) (hv : v ≤ 255) : posterize_channel v ≤ 255 := by
  rw [posterize_channel_eq v (by omega)]
  omega

theorem brighten_channel_le (v : ℕ) : brighten_channel v ≤ 255 :=
  clip8_le _

/-- C6: channel values stay in `[0, 255]` after the posterization stage,
after the vibe-shift stage (for any shift vector), and after the final
brightness stage, i.e. at every pipeline stage past the 8-bit
blur/saturate output; out-of-range intermediates saturate at the bounds
(`clip8 300 = 255`) instead of wrapping mod 256 (which would give 44). -/
theorem channel_bounds (pre rk : Image → PixMap) (tile vibe : Image)
    (hpre : Bounded255 ⟨tile.w, tile.h, pre tile⟩) :
    Bounded255 (posterizeImg ⟨tile.w, tile.h, pre tile⟩) ∧
      (∀ s : ℚ × ℚ × ℚ, Bounded255 (shiftImg (posterizeImg ⟨tile.w, tile.h, pre tile⟩) s)) ∧
      Bounded255 (apply_skin pre rk tile vibe) ∧
      (∀ q : ℚ, clip8 q ≤ 255) ∧
      clip8 300 = 255 ∧ (300 : ℕ) % 256 = 44 := by
  refine ⟨?_, ?_, ?_, fun q => clip8_le q, clip8_of_ge 300 (by norm_num), rfl⟩
  · intro x hx y hy
    obtain ⟨h1, h2, h3⟩ := hpre x hx y hy
    exact ⟨posterize_channel_le _ h1, posterize_channel_le _ h2, posterize_channel_le _ h3⟩
  · intro s x hx y hy
    exact ⟨clip8_le _, clip8_le _, clip8_le _⟩
  · unfold apply_skin
    dsimp only
    split <;> intro x hx y hy <;>
      exact ⟨brighten_channel_le _, brighten_channel_le _, brighten_channel_le _⟩

/-- A 1x1 tile of the uniform dark gray (15, 15, 15). -/
def tileGray15 : Image := ⟨1, 1, fun _ _ => (15, 15, 15)⟩

/-- A 1x1 all-black vibe image. -/
def vibeBlack : Image := ⟨1, 1, fun _ _ => (0, 0, 0)⟩

/-- Blur+saturate stage instance for 1x1 uniform gray inputs: Pillow's
`GaussianBlur` leaves a 1x1 image unchanged, and `ImageEnhance.Color` is
the identity on gray pixels (`R = G = B`), so on such inputs the stage is
the identity pixel map. -/
def preIdent : Image → PixMap := fun t => t.px

/-- Resampling-kernel instance for 1x1 inputs: LANCZOS resampling of a
1x1 image replicates its single pixel at every target position. -/
def rkReplicate : Image → PixMap := fun v _ _ => v.px 0 0

/-- Witness for C6 at the concrete 1x1 gray tile. -/
theorem channel_bounds_witness :
    Bounded255 ⟨tileGray15.w, tileGray15.h, preIdent tileGray15⟩ ∧
      Bounded255 (apply_skin preIdent rkReplicate tileGray15 vibeBlack) := by
  have hpre : Bounded255 ⟨tileGray15.w, tileGray15.h, preIdent tileGray15⟩ := by
    intro x _ y _
    exact ⟨by norm_num [tileGray15, preIdent], by norm_num [tileGray15, preIdent],
      by norm_num [tileGray15, preIdent]⟩
  exact ⟨hpre,
    (channel_bounds preIdent rkReplicate tileGray15 vibeBlack hpre).2.2.1⟩

/-- Mean color of an image whose in-domain pixels are all the constant
triple `p`. -/
theorem meanColor_of_const (i : Image) (p : Px) (hw : 0 < i.w) (hh : 0 < i.h)
    (hc : ∀ x, x < i.w → ∀ y, y < i.h → i.px x y = p) :
    meanColor i = ((p.1 : ℚ), (p.2.1 : ℚ), (p.2.2 : ℚ)) := by
  have hs : ∀ f : Px → ℕ, csum i f = i.w * i.h * f p := by
    intro f
    unfold csum
    rw [Finset.sum_congr rfl fun x hx => Finset.sum_congr rfl fun y hy => by
      rw [hc x (Finset.mem_range.mp hx) y (Finset.mem_range.mp hy)]]
    simp [Finset.sum_const, mul_assoc]
  have hne : ((i.w : ℚ) * (i.h : ℚ)) ≠ 0 := by
    have : (0 : ℚ) < (i.w : ℚ) * (i.h : ℚ) := by
      apply mul_pos <;> exact_mod_cast by omega
    exact ne_of_gt this
  unfold meanColor
  rw [hs, hs, hs]
  push_cast
  refine Prod.ext ?_ (Prod.ext ?_ ?_) <;> dsimp only <;> field_simp

theorem mean_post_gray15 :
    meanColor (posterizeImg ⟨tileGray15.w, tileGray15.h, preIdent tileGray15⟩) =
      (0, 0, 0) := by
  have h := meanColor_of_const (posterizeImg ⟨tileGray15.w, tileGray15.h, preIdent tileGray15⟩)
    (0, 0, 0) (by norm_num [tileGray15, posterizeImg]) (by norm_num [tileGray15, posterizeImg])
    (fun x _ y _ => by simp [posterizeImg, preIdent, tileGray15]; decide)
  simpa using h

theorem mean_vibe_black :
    meanColor (vibeSmall rkReplicate vibeBlack) = (0, 0, 0) := by
  have h := meanColor_of_const (vibeSmall rkReplicate vibeBlack) (0, 0, 0)
    (by norm_num [vibeSmall]) (by norm_num [vibeSmall])
    (fun x _ y _ => rfl)
  simpa using h

theorem mean_vibe_gray15 :
    meanColor (vibeSmall rkReplicate tileGray15) = (15, 15, 15) := by
  have h := meanColor_of_const (vibeSmall rkReplicate tileGray15) (15, 15, 15)
    (by norm_num [vibeSmall]) (by norm_num [vibeSmall])
    (fun x _ y _ => rfl)
  simpa using h

/-- `apply_skin` with the local bindings of the source spelled out. -/
theorem apply_skin_def (pre rk : Image → PixMap) (tile vibe : Image) :
    apply_skin pre rk tile vibe =
      brightenImg
        (if dist2 (meanColor (vibeSmall rk vibe))
              (meanColor (posterizeImg ⟨tile.w, tile.h, pre tile⟩)) > 400 then
          shiftImg (posterizeImg ⟨tile.w, tile.h, pre tile⟩)
            (shiftVec (meanColor (vibeSmall rk vibe))
              (meanColor (posterizeImg ⟨tile.w, tile.h, pre tile⟩)))
        else
          posterizeImg ⟨tile.w, tile.h, pre tile⟩) :=
  rfl

theorem skin_gray_black_px :
    (apply_skin preIdent rkReplicate tileGray15 vibeBlack).px 0 0 = (5, 5, 5) := by
  rw [apply_skin_def, mean_vibe_black, mean_post_gray15]
  rw [if_neg (by norm_num [dist2])]
  show (brighten_channel (posterize_channel 15), brighten_channel (posterize_channel 15),
    brighten_channel (posterize_channel 15)) = (5, 5, 5)
  rw [show posterize_channel 15 = 0 from by decide]
  rw [show brighten_channel 0 = 5 from by norm_num [brighten_channel, clip8]; decide]

theorem skin_gray_self_px :
    (apply_skin preIdent rkReplicate tileGray15 tileGray15).px 0 0 = (7, 7, 7) := by
  rw [apply_skin_def, mean_vibe_gray15, mean_post_gray15]
  rw [if_pos (by norm_num [dist2])]
  show (brighten_channel (clip8 ((posterize_channel 15 : ℚ) + ((15 : ℚ) - 0) * (3 / 20))),
    brighten_channel (clip8 ((posterize_channel 15 : ℚ) + ((15 : ℚ) - 0) * (3 / 20))),
    brighten_channel (clip8 ((posterize_channel 15 : ℚ) + ((15 : ℚ) - 0) * (3 / 20)))) = (7, 7, 7)
  rw [show posterize_channel 15 = 0 from by decide]
  rw [show clip8 (((0 : ℕ) : ℚ) + ((15 : ℚ) - 0) * (3 / 20)) = 2 from by
    norm_num [clip8]; decide]
  rw [show brighten_channel 2 = 7 from by norm_num [brighten_channel, clip8]; decide]

/-- C1 counterexample: the 1x1 uniform gray-15 tile posterizes to black,
so its posterized mean is (0,0,0).  The all-black vibe has mean (0,0,0),
within distance 20, and the pipeline output is the pixel (5,5,5).  But
`apply_skin(tile, tile)` is NOT a no-op run of the shift stage: the
tile's own downscaled mean (15,15,15) is at distance 15·√3 ≈ 25.98 > 20
from the posterized mean, so the self-run shifts by 2.25 per channel and
outputs (7,7,7).  The two outputs differ at pixel (0,0), refuting the
claim. -/
theorem noShift_counterexample :
    dist2 (meanColor (vibeSmall rkReplicate vibeBlack))
        (meanColor (posterizeImg ⟨tileGray15.w, tileGray15.h, preIdent tileGray15⟩)) ≤ 400 ∧
      (apply_skin preIdent rkReplicate tileGray15 vibeBlack).px 0 0 = (5, 5, 5) ∧
      (apply_skin preIdent rkReplicate tileGray15 tileGray15).px 0 0 = (7, 7, 7) ∧
      (apply_skin preIdent rkReplicate tileGray15 vibeBlack).px 0 0 ≠
        (apply_skin preIdent rkReplicate tileGray15 tileGray15).px 0 0 := by
  refine ⟨?_, skin_gray_black_px, skin_gray_self_px, ?_⟩
  · rw [mean_vibe_black, mean_post_gray15]
    norm_num [dist2]
  · rw [skin_gray_black_px, skin_gray_self_px]
    decide

/-- C1 (amended): if the vibe's 32x32-downscale mean color is within
Euclidean distance 20 of the posterized tile's mean color (squared
distance at most 400), the shift stage is a no-op: the output is the
brightness stage applied directly to the posterized tile.  It is
pixel-identical to `apply_skin(tile, tile)` only under the additional
condition that the tile's own downscaled mean is also within distance 20
of the posterized mean (which the original claim wrongly took for
granted). -/
theorem noShift_amended (pre rk : Image → PixMap) (tile vibe : Image)
    (hvb : dist2 (meanColor (vibeSmall rk vibe))
        (meanColor (posterizeImg ⟨tile.w, tile.h, pre tile⟩)) ≤ 400) :
    apply_skin pre rk tile vibe = brightenImg (posterizeImg ⟨tile.w, tile.h, pre tile⟩) ∧
      (dist2 (meanColor (vibeSmall rk tile))
          (meanColor (posterizeImg ⟨tile.w, tile.h, pre tile⟩)) ≤ 400 →
        apply_skin pre rk tile vibe = apply_skin pre rk tile tile) := by
  have h1 : apply_skin pre rk tile vibe =
      brightenImg (posterizeImg ⟨tile.w, tile.h, pre tile⟩) := by
    rw [apply_skin_def, if_neg (not_lt.mpr hvb)]
  refine ⟨h1, fun htt => ?_⟩
  rw [h1, apply_skin_def, if_neg (not_lt.mpr htt)]

/-- Witness for C1 (amended) at the concrete gray tile and black vibe. -/
theorem noShift_amended_witness :
    dist2 (meanColor (vibeSmall rkReplicate vibeBlack))
        (meanColor (posterizeImg ⟨tileGray15.w, tileGray15.h, preIdent tileGray15⟩)) ≤ 400 ∧
      apply_skin preIdent rkReplicate tileGray15 vibeBlack =
        brightenImg (posterizeImg ⟨tileGray15.w, tileGray15.h, preIdent tileGray15⟩) := by
  have hd : dist2 (meanColor (vibeSmall rkReplicate vibeBlack))
      (meanColor (posterizeImg ⟨tileGray15.w, tileGray15.h, preIdent tileGray15⟩)) ≤ 400 := by
    rw [mean_vibe_black, mean_post_gray15]
    norm_num [dist2]
  exact ⟨hd, (noShift_amended preIdent rkReplicate tileGray15 vibeBlack hd).1⟩

/-- Two images agree as rasters: same dimensions and the same pixel
content everywhere inside the raster domain (byte-identical files). -/
def EqOn (i j : Image) : Prop :=
  i.w = j.w ∧ i.h = j.h ∧ ∀ x, x < i.w → ∀ y, y < i.h → i.px x y = j.px x y

theorem csum_congr (i j : Image) (f : Px → ℕ) (hij : EqOn i j) :
    csum i f = csum j f := by
  obtain ⟨hw, hh, hp⟩ := hij
  unfold csum
  rw [← hw, ← hh]
  exact Finset.sum_congr rfl fun x hx => Finset.sum_congr rfl fun y hy => by
    rw [hp x (Finset.mem_range.mp hx) y (Finset.mem_range.mp hy)]

theorem meanColor_congr (i j : Image) (hij : EqOn i j) :
    meanColor i = meanColor j := by
  unfold meanColor
  rw [csum_congr i j _ hij, csum_congr i j _ hij, csum_congr i j _ hij,
    hij.1, hij.2.1]

theorem EqOn_posterize (i j : Image) (hij : EqOn i j) :
    EqOn (posterizeImg i) (posterizeImg j) := by
  refine ⟨hij.1, hij.2.1, fun x hx y hy => ?_⟩
  show (posterize_channel (i.px x y).1, posterize_channel (i.px x y).2.1,
      posterize_channel (i.px x y).2.2) = _
  rw [hij.2.2 x hx y hy]
  rfl

theorem EqOn_shift (i j : Image) (s : ℚ × ℚ × ℚ) (hij : EqOn i j) :
    EqOn (shiftImg i s) (shiftImg j s) := by
  refine ⟨hij.1, hij.2.1, fun x hx y hy => ?_⟩
  show (clip8 ((i.px x y).1 + s.1), clip8 ((i.px x y).2.1 + s.2.1),
      clip8 ((i.px x y).2.2 + s.2.2)) = _
  rw [hij.2.2 x hx y hy]
  rfl

theorem EqOn_brighten (i j : Image) (hij : EqOn i j) :
    EqOn (brightenImg i) (brightenImg j) := by
  refine ⟨hij.1, hij.2.1, fun x hx y hy => ?_⟩
  show (brighten_channel (i.px x y).1, brighten_channel (i.px x y).2.1,
      brighten_channel (i.px x y).2.2) = _
  rw [hij.2.2 x hx y hy]
  rfl

/-- C5: the pipeline is a pure function of its two input rasters: given
stage functions that read only the raster content of their inputs, two
invocations on inputs that agree as rasters produce outputs that agree
as rasters (byte-identical encodings).  There is no other state the
result could depend on. -/
theorem apply_skin_deterministic (pre rk : Image → PixMap)
    (hpre : ∀ t t2, EqOn t t2 → ∀ x, x < t.w → ∀ y, y < t.h → pre t x y = pre t2 x y)
    (hrk : ∀ v v2, EqOn v v2 → ∀ x, x < 32 → ∀ y, y < 32 → rk v x y = rk v2 x y)
    (t t2 v v2 : Image) (ht : EqOn t t2) (hv : EqOn v v2) :
    EqOn (apply_skin pre rk t v) (apply_skin pre rk t2 v2) := by
  have hsat : EqOn ⟨t.w, t.h, pre t⟩ ⟨t2.w, t2.h, pre t2⟩ :=
    ⟨ht.1, ht.2.1, fun x hx y hy => hpre t t2 ht x hx y hy⟩
  have hpost := EqOn_posterize _ _ hsat
  have hvs : EqOn (vibeSmall rk v) (vibeSmall rk v2) :=
    ⟨rfl, rfl, fun x hx y hy => hrk v v2 hv x hx y hy⟩
  have hm1 : meanColor (vibeSmall rk v) = meanColor (vibeSmall rk v2) :=
    meanColor_congr _ _ hvs
  have hm2 : meanColor (posterizeImg ⟨t.w, t.h, pre t⟩) =
      meanColor (posterizeImg ⟨t2.w, t2.h, pre t2⟩) :=
    meanColor_congr _ _ hpost
  rw [apply_skin_def, apply_skin_def, ← hm1, ← hm2]
  split
  · exact EqOn_brighten _ _ (EqOn_shift _ _ _ hpost)
  · exact EqOn_brighten _ _ hpost

/-- A 1x1 gray tile whose pixel map carries junk outside the raster
domain; as a raster it is identical to `tileGray15`. -/
def tileGray15J : Image :=
  ⟨1, 1, fun x y => if x = 0 ∧ y = 0 then (15, 15, 15) else (99, 99, 99)⟩

/-- A resampling-kernel stand-in producing an all-black 32x32 image
regardless of input. -/
def rkBlack : Image → PixMap := fun _ _ _ => (0, 0, 0)

/-- Witness for C5: the two 1x1 gray rasters (with different out-of-domain
junk) produce raster-identical outputs. -/
theorem apply_skin_deterministic_witness :
    EqOn tileGray15 tileGray15J ∧
      EqOn (apply_skin preIdent rkBlack tileGray15 tileGray15)
        (apply_skin preIdent rkBlack tileGray15J tileGray15J) := by
  have ht : EqOn tileGray15 tileGray15J := by
    refine ⟨rfl, rfl, fun x hx y hy => ?_⟩
    have hx0 : x = 0 := by
      have : x < 1 := hx
      omega
    have hy0 : y = 0 := by
      have : y < 1 := hy
      omega
    subst hx0; subst hy0
    rfl
  refine ⟨ht, apply_skin_deterministic preIdent rkBlack ?_ ?_
    tileGray15 tileGray15J tileGray15 tileGray15J ht ht⟩
  · intro a b hab x hx y hy
    exact hab.2.2 x hx y hy
  · intro a b _ x _ y _
    rfl

/-- The Euclidean distance of two mean-color vectors over the 3 channels,
as the spec states it (`np.linalg.norm(vibe_mean - post_mean)`). -/
noncomputable def euclid (a b : ℚ × ℚ × ℚ) : ℝ :=
  Real.sqrt ((dist2 a b : ℚ) : ℝ)

theorem dist2_nonneg (a b : ℚ × ℚ × ℚ) : 0 ≤ dist2 a b := by
  unfold dist2
  positivity

/-- The source's squared comparison agrees with the spec's norm
comparison. -/
theorem euclid_gt_iff (a b : ℚ × ℚ × ℚ) :
    20 < euclid a b ↔ (400 : ℚ) < dist2 a b := by
  unfold euclid
  rw [Real.lt_sqrt (by norm_num)]
  constructor
  · intro h
    exact_mod_cast (by push_cast at h ⊢; linarith : ((400 : ℚ) : ℝ) < ((dist2 a b : ℚ) : ℝ))
  · intro h
    have : ((400 : ℚ) : ℝ) < ((dist2 a b : ℚ) : ℝ) := by exact_mod_cast h
    push_cast at this ⊢
    linarith

/-- C3: the vibe-shift stage.  The vibe reference is downscaled to 32x32
and its mean color `vibeMean` compared with the posterized tile's mean
`tileMean`; with `d` their Euclidean distance over the 3 channels: if
`d > 20`, the constant vector `(vibeMean - tileMean) × 0.15` is added to
every pixel's channels with clamping to `[0, 255]` (on the 8-bit grid);
if `d ≤ 20`, every pixel passes to the brightness stage unchanged from
the posterization stage. -/
theorem vibe_shift_stage (pre rk : Image → PixMap) (tile vibe : Image) :
    (vibeSmall rk vibe).w = 32 ∧ (vibeSmall rk vibe).h = 32 ∧
      (20 < euclid (meanColor (vibeSmall rk vibe))
          (meanColor (posterizeImg ⟨tile.w, tile.h, pre tile⟩)) →
        apply_skin pre rk tile vibe =
          brightenImg (shiftImg (posterizeImg ⟨tile.w, tile.h, pre tile⟩)
            (shiftVec (meanColor (vibeSmall rk vibe))
              (meanColor (posterizeImg ⟨tile.w, tile.h, pre tile⟩))))) ∧
      (euclid (meanColor (vibeSmall rk vibe))
          (meanColor (posterizeImg ⟨tile.w, tile.h, pre tile⟩)) ≤ 20 →
        apply_skin pre rk tile vibe =
          brightenImg (posterizeImg ⟨tile.w, tile.h, pre tile⟩)) := by
  refine ⟨rfl, rfl, fun hgt => ?_, fun hle => ?_⟩
  · rw [apply_skin_def, if_pos ((euclid_gt_iff _ _).mp hgt)]
  · have hd : ¬((400 : ℚ) < dist2 (meanColor (vibeSmall rk vibe))
        (meanColor (posterizeImg ⟨tile.w, tile.h, pre tile⟩))) := by
      intro hc
      exact absurd ((euclid_gt_iff _ _).mpr hc) (not_lt.mpr hle)
    rw [apply_skin_def, if_neg hd]

/-- Witness for C3 on the concrete gray tile used as its own vibe: the
distance √675 exceeds 20 and the shift branch is taken. -/
theorem vibe_shift_stage_witness :
    20 < euclid (meanColor (vibeSmall rkReplicate tileGray15))
        (meanColor (posterizeImg ⟨tileGray15.w, tileGray15.h, preIdent tileGray15⟩)) ∧
      apply_skin preIdent rkReplicate tileGray15 tileGray15 =
        brightenImg (shiftImg (posterizeImg ⟨tileGray15.w, tileGray15.h, preIdent tileGray15⟩)
          (shiftVec (meanColor (vibeSmall rkReplicate tileGray15))
            (meanColor (posterizeImg ⟨tileGray15.w, tileGray15.h, preIdent tileGray15⟩)))) := by
  have hgt : 20 < euclid (meanColor (vibeSmall rkReplicate tileGray15))
      (meanColor (posterizeImg ⟨tileGray15.w, tileGray15.h, preIdent tileGray15⟩)) := by
    rw [euclid_gt_iff, mean_vibe_gray15, mean_post_gray15]
    norm_num [dist2]
  exact ⟨hgt,
    (vibe_shift_stage preIdent rkReplicate tileGray15 tileGray15).2.2.1 hgt⟩

/-- Python's `range(a, b)` over the integers, in iteration order. -/
def pyRange (a b : ℤ) : List ℤ :=
  (List.range (b - a).toNat).map (fun i : ℕ => a + (i : ℤ))

/-- The tile grid enumerated by `generate_sf_tiles` (lines 166-168):
`for dx in range(-padding, padding + 1): for dy in range(-padding,
padding + 1): (cx + dx, cy + dy)`. -/
def tileGrid (cx cy : ℤ) (p : ℕ) : List (ℤ × ℤ) :=
  (pyRange (-(p : ℤ)) ((p : ℤ) + 1)).flatMap fun dx =>
    (pyRange (-(p : ℤ)) ((p : ℤ) + 1)).map fun dy => (cx + dx, cy + dy)

theorem mem_pyRange (a b z : ℤ) : z ∈ pyRange a b ↔ a ≤ z ∧ z < b := by
  unfold pyRange
  simp only [List.mem_map, List.mem_range]
  constructor
  · rintro ⟨i, hi, rfl⟩
    omega
  · rintro ⟨h1, h2⟩
    exact ⟨(z - a).toNat, by omega, by omega⟩

theorem length_pyRange (a b : ℤ) : (pyRange a b).length = (b - a).toNat := by
  rw [pyRange, List.length_map, List.length_range]

theorem nodup_pyRange (a b : ℤ) : (pyRange a b).Nodup := by
  unfold pyRange
  refine List.Nodup.map ?_ (List.nodup_range _)
  intro i j hij
  have h2 : a + (i : ℤ) = a + (j : ℤ) := hij
  omega

theorem length_flatMap_const {α β : Type} (l : List α) (f : α → List β) (n : ℕ)
    (h : ∀ a ∈ l, (f a).length = n) : (l.flatMap f).length = l.length * n := by
  induction l with
  | nil => simp
  | cons a t ih =>
    rw [List.flatMap_cons, List.length_append, h a (by simp),
      ih fun b hb => h b (by simp [hb]), List.length_cons]
    ring

/-- C8: the grid enumeration around center `(cx, cy)` with padding `p`
yields exactly `(2p+1)²` coordinates, with no duplicates, and its
members are exactly the pairs `(cx+dx, cy+dy)` with `dx, dy ∈ [-p, p]`. -/
theorem tile_grid_complete (cx cy : ℤ) (p : ℕ) :
    (tileGrid cx cy p).length = (2 * p + 1) ^ 2 ∧
      (tileGrid cx cy p).Nodup ∧
      ∀ q : ℤ × ℤ, (q ∈ tileGrid cx cy p ↔
        ∃ dx dy : ℤ, -(p : ℤ) ≤ dx ∧ dx ≤ p ∧ -(p : ℤ) ≤ dy ∧ dy ≤ p ∧
          q = (cx + dx, cy + dy)) := by
  have hlen : (pyRange (-(p : ℤ)) ((p : ℤ) + 1)).length = 2 * p + 1 := by
    rw [length_pyRange]
    omega
  refine ⟨?_, ?_, ?_⟩
  · unfold tileGrid
    rw [length_flatMap_const _ _ (2 * p + 1) fun a _ => by
      rw [List.length_map, hlen]]
    rw [hlen]
    ring
  · unfold tileGrid
    rw [List.nodup_flatMap]
    constructor
    · intro dx _
      refine List.Nodup.map ?_ (nodup_pyRange _ _)
      intro i j hij
      have : cy + i = cy + j := congrArg Prod.snd hij
      omega
    · refine List.Pairwise.imp ?_ (nodup_pyRange (-(p : ℤ)) ((p : ℤ) + 1))
      intro a b hab q hq1 hq2
      simp only [List.mem_map] at hq1 hq2
      obtain ⟨d1, _, he1⟩ := hq1
      obtain ⟨d2, _, he2⟩ := hq2
      have h1 : q.1 = cx + a := by rw [← he1]
      have h2 : q.1 = cx + b := by rw [← he2]
      exact hab (by omega)
  · intro q
    unfold tileGrid
    simp only [List.mem_flatMap, List.mem_map, mem_pyRange]
    constructor
    · rintro ⟨dx, ⟨h1, h2⟩, dy, ⟨h3, h4⟩, rfl⟩
      exact ⟨dx, dy, h1, by omega, h3, by omega, rfl⟩
    · rintro ⟨dx, dy, h1, h2, h3, h4, rfl⟩
      exact ⟨dx, ⟨h1, by omega⟩, dy, ⟨h3, by omega⟩, rfl⟩

/-- The batch loop body of `generate_sf_tiles` (lines 172-176), one step
per coordinate: if the raw tile file exists, skin it; otherwise attempt
the fetch (`download_osm_tile` returns a boolean — it catches every
exception internally, lines 134-143); on fetch failure the tile is
skipped (`continue`) and counted as one reported failure, on success the
tile is skinned.  Returns the coordinates for which a skinned output is
written, in processing order, together with the number of reported fetch
failures. -/
def processTiles (rawExists fetch : ℤ × ℤ → Bool) :
    List (ℤ × ℤ) → List (ℤ × ℤ) × ℕ
  | [] => ([], 0)
  | c :: rest =>
    let r := processTiles rawExists fetch rest
    if rawExists c then (c :: r.1, r.2)
    else if fetch c then (c :: r.1, r.2)
    else (r.1, r.2 + 1)

/-- C9: a failing fetch is reported as a per-tile boolean failure, the
failing tile is skipped with no skinned output written for it, and
processing continues with the remaining tiles; in particular, when every
fetch of a grid of `N` coordinates fails (and no raw tile is cached),
the batch completes with zero skinned outputs and `N` reported
failures. -/
theorem batch_partial_failure (rawExists fetch : ℤ × ℤ → Bool)
    (coords : List (ℤ × ℤ))
    (hraw : ∀ c ∈ coords, rawExists c = false)
    (hfetch : ∀ c ∈ coords, fetch c = false) :
    processTiles rawExists fetch coords = ([], coords.length) ∧
      ∀ c rest, rawExists c = false → fetch c = false →
        processTiles rawExists fetch (c :: rest) =
          ((processTiles rawExists fetch rest).1,
            (processTiles rawExists fetch rest).2 + 1) := by
  constructor
  · induction coords with
    | nil => rfl
    | cons c rest ih =>
      have h1 : rawExists c = false := hraw c (by simp)
      have h2 : fetch c = false := hfetch c (by simp)
      have hr := ih (fun d hd => hraw d (by simp [hd])) (fun d hd => hfetch d (by simp [hd]))
      show (if rawExists c then _ else if fetch c then _ else _) = _
      rw [h1, h2, hr]
      simp
  · intro c rest h1 h2
    show (if rawExists c then _ else if fetch c then _ else _) = _
    rw [h1, h2]
    simp

/-- Witness for C9: a two-tile grid where every fetch fails produces no
output and two reported failures. -/
theorem batch_partial_failure_witness :
    processTiles (fun _ => false) (fun _ => false) [((0 : ℤ), (0 : ℤ)), (1, 1)] =
      ([], 2) :=
  (batch_partial_failure (fun _ => false) (fun _ => false) [((0 : ℤ), (0 : ℤ)), (1, 1)]
    (fun _ _ => rfl) (fun _ _ => rfl)).1

/-!
## Coordinate projection (`lat_lon_to_tile`, lines 120-126)

Interval-arithmetic certificate for the San Francisco test coordinate:
sin/cos are evaluated at the rational point c = 0.6595294 by a Taylor
bound at c/128 followed by seven double-angle steps, transported to the
true latitude in radians by 1-Lipschitz bounds, and the logarithm is
bracketed through rational Taylor bounds on exp.
-/

theorem trig0 :
    (25762753007/5000000000000 : ℝ) ≤ Real.sin (3297647/640000000) ∧
      Real.sin (3297647/640000000) ≤ 206102027/40000000000 ∧
      (9999867254567/10000000000000 : ℝ) ≤ Real.cos (3297647/640000000) ∧
      Real.cos (3297647/640000000) ≤ 4999933627651/5000000000000 := by
  have hb : |(3297647/640000000 : ℝ)| ≤ 1 := by
    rw [abs_of_nonneg (by norm_num : (0:ℝ) ≤ 3297647/640000000)]
    norm_num
  have hs := Real.sin_bound hb
  have hc := Real.cos_bound hb
  rw [abs_of_nonneg (by norm_num : (0:ℝ) ≤ 3297647/640000000), abs_le] at hs hc
  obtain ⟨hs1, hs2⟩ := hs
  obtain ⟨hc1, hc2⟩ := hc
  refine ⟨by nlinarith [hs1], by nlinarith [hs2], by nlinarith [hc1], by nlinarith [hc2]⟩

theorem trig1 :
    (12881205509/1250000000000 : ℝ) ≤ Real.sin (3297647/320000000) ∧
      Real.sin (3297647/320000000) ≤ 103049645553/10000000000000 ∧
      (312483406931/312500000000 : ℝ) ≤ Real.cos (3297647/320000000) ∧
      Real.cos (3297647/320000000) ≤ 9999469024733/10000000000000 := by
  obtain ⟨hs1, hs2, hc1, hc2⟩ := trig0
  have hsin : Real.sin (3297647/320000000) =
      2 * Real.sin (3297647/640000000) * Real.cos (3297647/640000000) := by
    rw [show (3297647/320000000 : ℝ) = 2 * (3297647/640000000) by norm_num, Real.sin_two_mul]
  have hcos : Real.cos (3297647/320000000) =
      2 * Real.cos (3297647/640000000) ^ 2 - 1 := by
    rw [show (3297647/320000000 : ℝ) = 2 * (3297647/640000000) by norm_num, Real.cos_two_mul]
  refine ⟨?_, ?_, ?_, ?_⟩
  · rw [hsin]; nlinarith [hs1, hs2, hc1, hc2]
  · rw [hsin]; nlinarith [hs1, hs2, hc1, hc2]
  · rw [hcos]; nlinarith [hc1, hc2]
  · rw [hcos]; nlinarith [hc1, hc2]

theorem trig2 :
    (2576104309/125000000000 : ℝ) ≤ Real.sin (3297647/160000000) ∧
      Real.sin (3297647/160000000) ≤ 6440260867/312500000000 ∧
      (1999575228711/2000000000000 : ℝ) ≤ Real.cos (3297647/160000000) ∧
      Real.cos (3297647/160000000) ≤ 9997876155319/10000000000000 := by
  obtain ⟨hs1, hs2, hc1, hc2⟩ := trig1
  have hsin : Real.sin (3297647/160000000) =
      2 * Real.sin (3297647/320000000) * Real.cos (3297647/320000000) := by
    rw [show (3297647/160000000 : ℝ) = 2 * (3297647/320000000) by norm_num, Real.sin_two_mul]
  have hcos : Real.cos (3297647/160000000) =
      2 * Real.cos (3297647/320000000) ^ 2 - 1 := by
    rw [show (3297647/160000000 : ℝ) = 2 * (3297647/320000000) by norm_num, Real.cos_two_mul]
  refine ⟨?_, ?_, ?_, ?_⟩
  · rw [hsin]; nlinarith [hs1, hs2, hc1, hc2]
  · rw [hsin]; nlinarith [hs1, hs2, hc1, hc2]
  · rw [hcos]; nlinarith [hc1, hc2]
  · rw [hcos]; nlinarith [hc1, hc2]

theorem trig3 :
    (103022287257/2500000000000 : ℝ) ≤ Real.sin (3297647/80000000) ∧
      Real.sin (3297647/80000000) ≤ 10302228889/250000000000 ∧
      (9991505476373/10000000000000 : ℝ) ≤ Real.cos (3297647/80000000) ∧
      Real.cos (3297647/80000000) ≤ 499575276171/500000000000 := by
  obtain ⟨hs1, hs2, hc1, hc2⟩ := trig2
  have hsin : Real.sin (3297647/80000000) =
      2 * Real.sin (3297647/160000000) * Real.cos (3297647/160000000) := by
    rw [show (3297647/80000000 : ℝ) = 2 * (3297647/160000000) by norm_num, Real.sin_two_mul]
  have hcos : Real.cos (3297647/80000000) =
      2 * Real.cos (3297647/160000000) ^ 2 - 1 := by
    rw [show (3297647/80000000 : ℝ) = 2 * (3297647/160000000) by norm_num, Real.cos_two_mul]
  refine ⟨?_, ?_, ?_, ?_⟩
  · rw [hsin]; nlinarith [hs1, hs2, hc1, hc2]
  · rw [hsin]; nlinarith [hs1, hs2, hc1, hc2]
  · rw [hcos]; nlinarith [hc1, hc2]
  · rw [hcos]; nlinarith [hc1, hc2]

theorem trig4 :
    (823478197853/10000000000000 : ℝ) ≤ Real.sin (3297647/40000000) ∧
      Real.sin (3297647/40000000) ≤ 6433423553/78125000000 ∧
      (4983018168439/5000000000000 : ℝ) ≤ Real.cos (3297647/40000000) ∧
      Real.cos (3297647/40000000) ≤ 9966036524907/10000000000000 := by
  obtain ⟨hs1, hs2, hc1, hc2⟩ := trig3
  have hsin : Real.sin (3297647/40000000) =
      2 * Real.sin (3297647/80000000) * Real.cos (3297647/80000000) := by
    rw [show (3297647/40000000 : ℝ) = 2 * (3297647/80000000) by norm_num, Real.sin_two_mul]
  have hcos : Real.cos (3297647/40000000) =
      2 * Real.cos (3297647/80000000) ^ 2 - 1 := by
    rw [show (3297647/40000000 : ℝ) = 2 * (3297647/80000000) by norm_num, Real.cos_two_mul]
  refine ⟨?_, ?_, ?_, ?_⟩
  · rw [hsin]; nlinarith [hs1, hs2, hc1, hc2]
  · rw [hsin]; nlinarith [hs1, hs2, hc1, hc2]
  · rw [hcos]; nlinarith [hc1, hc2]
  · rw [hcos]; nlinarith [hc1, hc2]

theorem trig5 :
    (328272545697/2000000000000 : ℝ) ≤ Real.sin (3297647/20000000) ∧
      Real.sin (3297647/20000000) ≤ 1641362793201/10000000000000 ∧
      (4932188026797/5000000000000 : ℝ) ≤ Real.cos (3297647/20000000) ∧
      Real.cos (3297647/20000000) ≤ 9864376803157/10000000000000 := by
  obtain ⟨hs1, hs2, hc1, hc2⟩ := trig4
  have hsin : Real.sin (3297647/20000000) =
      2 * Real.sin (3297647/40000000) * Real.cos (3297647/40000000) := by
    rw [show (3297647/20000000 : ℝ) = 2 * (3297647/40000000) by norm_num, Real.sin_two_mul]
  have hcos : Real.cos (3297647/20000000) =
      2 * Real.cos (3297647/40000000) ^ 2 - 1 := by
    rw [show (3297647/20000000 : ℝ) = 2 * (3297647/40000000) by norm_num, Real.cos_two_mul]
  refine ⟨?_, ?_, ?_, ?_⟩
  · rw [hsin]; nlinarith [hs1, hs2, hc1, hc2]
  · rw [hsin]; nlinarith [hs1, hs2, hc1, hc2]
  · rw [hcos]; nlinarith [hc1, hc2]
  · rw [hcos]; nlinarith [hc1, hc2]

theorem trig6 :
    (129528153553/400000000000 : ℝ) ≤ Real.sin (3297647/10000000) ∧
      Real.sin (3297647/10000000) ≤ 809551053141/2500000000000 ∧
      (9461182985343/10000000000000 : ℝ) ≤ Real.cos (3297647/10000000) ∧
      Real.cos (3297647/10000000) ≤ 9461185942933/10000000000000 := by
  obtain ⟨hs1, hs2, hc1, hc2⟩ := trig5
  have hsin : Real.sin (3297647/10000000) =
      2 * Real.sin (3297647/20000000) * Real.cos (3297647/20000000) := by
    rw [show (3297647/10000000 : ℝ) = 2 * (3297647/20000000) by norm_num, Real.sin_two_mul]
  have hcos : Real.cos (3297647/10000000) =
      2 * Real.cos (3297647/20000000) ^ 2 - 1 := by
    rw [show (3297647/10000000 : ℝ) = 2 * (3297647/20000000) by norm_num, Real.cos_two_mul]
  refine ⟨?_, ?_, ?_, ?_⟩
  · rw [hsin]; nlinarith [hs1, hs2, hc1, hc2]
  · rw [hsin]; nlinarith [hs1, hs2, hc1, hc2]
  · rw [hcos]; nlinarith [hc1, hc2]
  · rw [hcos]; nlinarith [hc1, hc2]

theorem trig7 :
    (382965488287/625000000000 : ℝ) ≤ Real.sin (3297647/5000000) ∧
      Real.sin (3297647/5000000) ≤ 1531862608813/2500000000000 ∧
      (1975699174107/2500000000000 : ℝ) ≤ Real.cos (3297647/5000000) ∧
      Real.cos (3297647/5000000) ≤ 7902807889351/10000000000000 := by
  obtain ⟨hs1, hs2, hc1, hc2⟩ := trig6
  have hsin : Real.sin (3297647/5000000) =
      2 * Real.sin (3297647/10000000) * Real.cos (3297647/10000000) := by
    rw [show (3297647/5000000 : ℝ) = 2 * (3297647/10000000) by norm_num, Real.sin_two_mul]
  have hcos : Real.cos (3297647/5000000) =
      2 * Real.cos (3297647/10000000) ^ 2 - 1 := by
    rw [show (3297647/5000000 : ℝ) = 2 * (3297647/10000000) by norm_num, Real.cos_two_mul]
  refine ⟨?_, ?_, ?_, ?_⟩
  · rw [hsin]; nlinarith [hs1, hs2, hc1, hc2]
  · rw [hsin]; nlinarith [hs1, hs2, hc1, hc2]
  · rw [hcos]; nlinarith [hc1, hc2]
  · rw [hcos]; nlinarith [hc1, hc2]

theorem abs_sin_sub_sin (x y : ℝ) : |Real.sin x - Real.sin y| ≤ |x - y| := by
  rw [Real.sin_sub_sin, abs_mul, abs_mul, abs_two]
  have h1 : |Real.sin ((x - y) / 2)| ≤ |x - y| / 2 := by
    have h := Real.abs_sin_le_abs (x := (x - y) / 2)
    rwa [abs_div, abs_two] at h
  have h2 : |Real.cos ((x + y) / 2)| ≤ 1 := Real.abs_cos_le_one _
  have h3 : (0:ℝ) ≤ |Real.sin ((x - y) / 2)| := abs_nonneg _
  nlinarith [abs_nonneg (x - y)]

theorem abs_cos_sub_cos (x y : ℝ) : |Real.cos x - Real.cos y| ≤ |x - y| := by
  rw [Real.cos_sub_cos, abs_mul, abs_mul, abs_neg, abs_two]
  have h1 : |Real.sin ((x - y) / 2)| ≤ |x - y| / 2 := by
    have h := Real.abs_sin_le_abs (x := (x - y) / 2)
    rwa [abs_div, abs_two] at h
  have h2 : |Real.sin ((x + y) / 2)| ≤ 1 := Real.abs_sin_le_one _
  have h3 : (0:ℝ) ≤ |Real.sin ((x - y) / 2)| := abs_nonneg _
  nlinarith [abs_nonneg (x - y)]

theorem theta_near :
    |(37.78825 : ℝ) * Real.pi / 180 - 3297647/5000000| ≤ 14053/90000000000 := by
  have h1 := Real.pi_gt_d6
  have h2 := Real.pi_lt_d6
  rw [abs_le]
  constructor <;> nlinarith [h1, h2]

theorem sin_theta_bounds :
    (6127446251147/10000000000000 : ℝ) ≤ Real.sin ((37.78825 : ℝ) * Real.pi / 180) ∧
      Real.sin ((37.78825 : ℝ) * Real.pi / 180) ≤ 6127451996697/10000000000000 := by
  obtain ⟨hs1, hs2, _, _⟩ := trig7
  have ht := theta_near
  have hl := abs_sin_sub_sin ((37.78825 : ℝ) * Real.pi / 180) (3297647/5000000)
  rw [abs_le] at hl
  constructor <;> nlinarith [hs1, hs2, hl.1, hl.2, ht, abs_nonneg ((37.78825 : ℝ) * Real.pi / 180 - 3297647/5000000)]

theorem cos_theta_bounds :
    (7902795134983/10000000000000 : ℝ) ≤ Real.cos ((37.78825 : ℝ) * Real.pi / 180) ∧
      Real.cos ((37.78825 : ℝ) * Real.pi / 180) ≤ 1975702362699/2500000000000 := by
  obtain ⟨_, _, hc1, hc2⟩ := trig7
  have ht := theta_near
  have hl := abs_cos_sub_cos ((37.78825 : ℝ) * Real.pi / 180) (3297647/5000000)
  rw [abs_le] at hl
  constructor <;> nlinarith [hc1, hc2, hl.1, hl.2, ht, abs_nonneg ((37.78825 : ℝ) * Real.pi / 180 - 3297647/5000000)]

theorem t_bounds :
    (20407231569429/10000000000000 : ℝ) ≤
        Real.tan ((37.78825 : ℝ) * Real.pi / 180) +
          1 / Real.cos ((37.78825 : ℝ) * Real.pi / 180) ∧
      Real.tan ((37.78825 : ℝ) * Real.pi / 180) +
          1 / Real.cos ((37.78825 : ℝ) * Real.pi / 180) ≤
        20407275807147/10000000000000 := by
  obtain ⟨hs1, hs2⟩ := sin_theta_bounds
  obtain ⟨hc1, hc2⟩ := cos_theta_bounds
  have hcpos : 0 < Real.cos ((37.78825 : ℝ) * Real.pi / 180) := by linarith
  have hT : Real.tan ((37.78825 : ℝ) * Real.pi / 180) +
      1 / Real.cos ((37.78825 : ℝ) * Real.pi / 180) =
      (Real.sin ((37.78825 : ℝ) * Real.pi / 180) + 1) /
        Real.cos ((37.78825 : ℝ) * Real.pi / 180) := by
    rw [Real.tan_eq_sin_div_cos, div_add_div_same]
  rw [hT]
  constructor
  · rw [le_div_iff₀ hcpos]
    nlinarith [hs1, hc2]
  · rw [div_le_iff₀ hcpos]
    nlinarith [hs2, hc1]

theorem log_t_bounds :
    (1860 : ℝ) * Real.pi / 8192 <
        Real.log (Real.tan ((37.78825 : ℝ) * Real.pi / 180) +
          1 / Real.cos ((37.78825 : ℝ) * Real.pi / 180)) ∧
      Real.log (Real.tan ((37.78825 : ℝ) * Real.pi / 180) +
          1 / Real.cos ((37.78825 : ℝ) * Real.pi / 180)) ≤
        (1861 : ℝ) * Real.pi / 8192 := by
  obtain ⟨ht1, ht2⟩ := t_bounds
  have htpos : (0 : ℝ) < Real.tan ((37.78825 : ℝ) * Real.pi / 180) +
      1 / Real.cos ((37.78825 : ℝ) * Real.pi / 180) := by linarith
  have hπlo := Real.pi_gt_d6
  have hπhi := Real.pi_lt_d6
  constructor
  · have hexp : Real.exp (292168149/409600000) <
        Real.tan ((37.78825 : ℝ) * Real.pi / 180) +
          1 / Real.cos ((37.78825 : ℝ) * Real.pi / 180) := by
      have hb := Real.exp_bound' (x := 292168149/409600000)
        (by norm_num) (by norm_num) (n := 11) (by norm_num)
      have hsum : (∑ m ∈ Finset.range 11, (292168149/409600000 : ℝ) ^ m / m.factorial) +
          (292168149/409600000 : ℝ) ^ 11 * (11 + 1) / (Nat.factorial 11 * 11) <
          20407231569429/10000000000000 := by
        simp only [Finset.sum_range_succ, Finset.sum_range_zero, Nat.factorial]
        norm_num
      linarith
    have hlt := (Real.lt_log_iff_exp_lt htpos).mpr hexp
    nlinarith [hlt]
  · have hexp : Real.tan ((37.78825 : ℝ) * Real.pi / 180) +
        1 / Real.cos ((37.78825 : ℝ) * Real.pi / 180) ≤
        Real.exp (730812839/1024000000) := by
      have hsum := Real.sum_le_exp_of_nonneg
        (x := 730812839/1024000000) (by norm_num) 9
      have hval : (20407275807147/10000000000000 : ℝ) ≤
          ∑ m ∈ Finset.range 9, (730812839/1024000000 : ℝ) ^ m / m.factorial := by
        simp only [Finset.sum_range_succ, Finset.sum_range_zero, Nat.factorial]
        norm_num
      linarith
    have hle := (Real.log_le_iff_le_exp htpos).mpr hexp
    nlinarith [hle]

/-- Python `int(x)` on a float: truncation toward zero. -/
noncomputable def pyInt (x : ℝ) : ℤ :=
  if 0 ≤ x then ⌊x⌋ else ⌈x⌉

/-- `lat_lon_to_tile` (lines 120-126): the Web-Mercator slippy-map
formula, with Python floats modelled as reals
(`math.radians lat = lat * π / 180`, `math.log` the natural log). -/
noncomputable def lat_lon_to_tile (lat lon : ℝ) (zoom : ℕ) : ℤ × ℤ :=
  let num_tiles : ℝ := 2 ^ zoom
  let x := pyInt ((lon + 180) / 360 * num_tiles)
  let lat_rad := lat * Real.pi / 180
  let y := pyInt ((1 - Real.log (Real.tan lat_rad + 1 / Real.cos lat_rad) / Real.pi) / 2
    * num_tiles)
  (x, y)

/-- C4: the tile coordinates of the San Francisco test location at
zoom 14 are exactly (2619, 6331). -/
theorem lat_lon_to_tile_sf :
    lat_lon_to_tile 37.78825 (-122.4324) 14 = (2619, 6331) := by
  obtain ⟨hL1, hL2⟩ := log_t_bounds
  have hπ : (0 : ℝ) < Real.pi := Real.pi_pos
  have hx : pyInt (((-122.4324 : ℝ) + 180) / 360 * ((2 : ℝ) ^ (14 : ℕ))) = 2619 := by
    have hval : (((-122.4324 : ℝ) + 180) / 360 * ((2 : ℝ) ^ (14 : ℕ))) = 8187392/3125 := by
      norm_num
    rw [pyInt, hval, if_pos (by norm_num)]
    rw [Int.floor_eq_iff]
    norm_num
  have hp14 : ((2 : ℝ) ^ (14 : ℕ)) = 16384 := by norm_num
  have hd1 : Real.log (Real.tan ((37.78825 : ℝ) * Real.pi / 180) +
      1 / Real.cos ((37.78825 : ℝ) * Real.pi / 180)) / Real.pi ≤ 1861 / 8192 := by
    rw [div_le_div_iff₀ hπ (by norm_num : (0:ℝ) < 8192)]
    linarith
  have hd2 : (1860 : ℝ) / 8192 < Real.log (Real.tan ((37.78825 : ℝ) * Real.pi / 180) +
      1 / Real.cos ((37.78825 : ℝ) * Real.pi / 180)) / Real.pi := by
    rw [div_lt_div_iff₀ (by norm_num : (0:ℝ) < 8192) hπ]
    linarith
  have hyv : (6331 : ℝ) ≤ (1 - Real.log (Real.tan ((37.78825 : ℝ) * Real.pi / 180) +
        1 / Real.cos ((37.78825 : ℝ) * Real.pi / 180)) / Real.pi) / 2 * ((2 : ℝ) ^ (14 : ℕ)) ∧
      (1 - Real.log (Real.tan ((37.78825 : ℝ) * Real.pi / 180) +
        1 / Real.cos ((37.78825 : ℝ) * Real.pi / 180)) / Real.pi) / 2 * ((2 : ℝ) ^ (14 : ℕ))
        < 6332 := by
    rw [hp14]
    constructor
    · linarith
    · linarith
  have hy : pyInt ((1 - Real.log (Real.tan ((37.78825 : ℝ) * Real.pi / 180) +
      1 / Real.cos ((37.78825 : ℝ) * Real.pi / 180)) / Real.pi) / 2
        * ((2 : ℝ) ^ (14 : ℕ))) = 6331 := by
    rw [pyInt, if_pos (by linarith [hyv.1])]
    rw [Int.floor_eq_iff]
    constructor
    · exact_mod_cast hyv.1
    · push_cast
      linarith [hyv.2]
  show (pyInt (((-122.4324 : ℝ) + 180) / 360 * ((2 : ℝ) ^ (14 : ℕ))),
    pyInt ((1 - Real.log (Real.tan ((37.78825 : ℝ) * Real.pi / 180) +
      1 / Real.cos ((37.78825 : ℝ) * Real.pi / 180)) / Real.pi) / 2
        * ((2 : ℝ) ^ (14 : ℕ)))) = (2619, 6331)
  rw [hx, hy]
